import Mathlib

/-!
# PgeRunner: the native bridge of the olcPixelGameEngine Android launcher

A shallow embedding of `lib/src/main/cpp/lib/olcPGE_runner/PgeRunner.cpp`.

The file has one piece of state of its own, the static pointer `g_renderer`,
and writes one static of the engine, `olc::PixelGameEngine::ROOTPATH`.  The four
entry points called from Java are embedded as functions on an explicit `State`.
What an entry point does to the outside world (the renderer it forwards to, the
log, the JNI calls on the host's event object, `new` and `delete` of a renderer)
is returned as a list of `Effect`s in program order.  Calling a method through a
null `g_renderer` is a `Fault`.
-/

namespace PgeRunner

/-! ## Values that cross the JNI boundary -/

/-- Smallest value of the C++ type `int` (32 bit on every Android ABI). -/
def INT_MIN : Int := -2147483648

/-- Largest value of the C++ type `int`. -/
def INT_MAX : Int := 2147483647

/-- A `jfloat`.  A finite value is `m * 2 ^ e`; every finite IEEE single is of
this form (with `|m| < 2 ^ 24` and `-149 ≤ e ≤ 104`), so a statement about all
`JFloat`s covers every value the host can pass. -/
inductive JFloat where
  | finite (m e : Int)
  | inf (neg : Bool)
  | nan
deriving DecidableEq, Repr

/-- The float-to-int conversion `(int) x` used on lines 148 to 151.  On a value whose
truncation fits in `int` C++ defines it as truncation toward zero.  Outside that
range (and on infinities and NaN) the language leaves it open; the model takes
what the conversion instruction of the ARM targets of an Android build does: it
saturates, and NaN becomes 0.  Statements about the truncated coordinates carry
the in-range hypothesis and so do not depend on that choice. -/
def floatToInt : JFloat → Int
  | .finite m e =>
    let t := if 0 ≤ e then m * 2 ^ e.toNat else Int.tdiv m (2 ^ (-e).toNat)
    if t < INT_MIN then INT_MIN else if INT_MAX < t then INT_MAX else t
  | .inf true => INT_MIN
  | .inf false => INT_MAX
  | .nan => 0

/-- The conversion `(unsigned) x` of a `jint` on line 102: reduction modulo `2 ^ 32`. -/
def toUnsigned (x : Int) : Nat := (x % 2 ^ 32).toNat

/-- The record `MotionEvent_t` filled in on lines 145 to 151. -/
structure MotionEvent_t where
  PointersCount : Int
  Action : Int
  X0 : Int
  Y0 : Int
  X1 : Int
  Y1 : Int
deriving DecidableEq, Repr

/-- The host's `android.view.MotionEvent` as seen through the JNI calls of
`onTouch`: what `getPointerCount()`, `getAction()`, `getX(i)` and `getY(i)` answer.
The two integers are `jint`s and are stored in the record as they come. -/
structure JMotionEvent where
  getPointerCount : Int
  getAction : Int
  getX : Int → JFloat
  getY : Int → JFloat

/-! ## Effects, faults and state -/

/-- What an entry point does to its collaborators, in program order.  A renderer
instance is named by a number. -/
inductive Effect where
  /-- The expression `delete g_renderer` on line 60. -/
  | delete (r : Nat)
  /-- The call `RendererPge::createRender(BOOTINSTANCE)` on line 82 and the instance it returned. -/
  | createRender (boot r : Nat)
  /-- The macro `ALOGE` on line 84. -/
  | ALOGE (msg : String)
  /-- The call `g_renderer->resize(w, h)` on line 102. -/
  | resize (r w h : Nat)
  /-- The call `g_renderer->render()` on line 113. -/
  | render (r : Nat)
  /-- The call `g_renderer->OnMotionEvent(inputEvent)` on line 152. -/
  | OnMotionEvent (r : Nat) (inputEvent : MotionEvent_t)
  /-- A `CallIntMethod` on the motion event, by method name. -/
  | CallIntMethod (method : String)
  /-- A `CallFloatMethod` on the motion event, by method name and pointer index. -/
  | CallFloatMethod (method : String) (index : Int)
deriving DecidableEq, Repr

/-- The one way an entry point of this file can go wrong by itself: a method
call through `g_renderer` while it is `nullptr`. -/
inductive Fault where
  | nullDereference
deriving DecidableEq, Repr

/-- The statics the file reads and writes, and the renderer instances that
exist.  `g_renderer` is line 24; `ROOTPATH` and `BOOTINSTANCE` are statics of
`olc::PixelGameEngine`; `live` lists the renderer instances that were
constructed and not yet deleted, `fresh` is the name the next instance gets. -/
structure State where
  g_renderer : Option Nat
  ROOTPATH : String
  BOOTINSTANCE : Nat
  live : List Nat
  fresh : Nat
deriving DecidableEq, Repr

/-- The state at process start: `g_renderer = nullptr` (line 24) and no renderer
instance exists.  The initial `ROOTPATH` and the bootstrap object are the
engine's and are left open. -/
def initialState (rootpath : String) (boot : Nat) : State :=
  { g_renderer := none, ROOTPATH := rootpath, BOOTINSTANCE := boot, live := [], fresh := 0 }

/-! ## Library and collaborator functions -/

/-- The C library function `strstr(haystack, needle)`: the tail of `haystack` that
starts at the first occurrence of `needle`, or `none` (the null pointer) when
there is none. -/
def strstr : List Char → List Char → Option (List Char)
  | [], needle => if needle.isPrefixOf [] then some [] else none
  | c :: cs, needle => if needle.isPrefixOf (c :: cs) then some (c :: cs) else strstr cs needle

/-- The function `gl3stubInit` of lines 43 to 45 (the build without `DYNAMIC_ES3`):
it returns `GL_TRUE`. -/
def gl3stubInit : Bool := true

/-- Modelled from the spec: `RendererPge::createRender` is declared in
`RendererPge.h`, which is not among the sources; the spec has init "construct a
new renderer instance bound to a host-provided bootstrap object".  The model
allocates the instance `s.fresh`, which then is live, and returns it. -/
def createRender (s : State) (_boot : Nat) : Nat × State :=
  (s.fresh, { s with live := s.fresh :: s.live, fresh := s.fresh + 1 })

/-! ## The entry points -/

/-- Lines 59 to 62 of `init`: an existing renderer is deleted and the pointer cleared. -/
def releaseRenderer (s : State) : List Effect × State :=
  match s.g_renderer with
  | some r => ([Effect.delete r], { s with g_renderer := none, live := s.live.erase r })
  | none => ([], s)

/-- Lines 64 to 72 of `init`: `ROOTPATH = std::string(cstr) + "/"`, where `cstr`
is what `GetStringUTFChars` returns for the Java string: its characters (the
encoding has no zero byte inside, so `std::string(cstr)` takes all of them).
The JNI call is taken to succeed. -/
def setRootPath (s : State) (cstr : String) : State :=
  { s with ROOTPATH := cstr ++ "/" }

/-- Lines 79 to 85 of `init`: the version check, then either the construction
of the renderer or the error log. -/
def createOrLog (s : State) (versionStr : String) : List Effect × State :=
  if ((strstr versionStr.data "OpenGL ES 3.".data).isSome && gl3stubInit) ||
      (strstr versionStr.data "OpenGL ES 2.".data).isSome then
    let (r, s1) := createRender s s.BOOTINSTANCE
    ([Effect.createRender s.BOOTINSTANCE r], { s1 with g_renderer := some r })
  else
    ([Effect.ALOGE "Unsupported OpenGL ES version"], s)

/-- The entry point `init` (lines 55 to 86).  `internalFilesPath` is the Java string
argument; `versionStr` is what `glGetString(GL_VERSION)` answers at the call,
taken to be a string (a graphics context is current). -/
def Java_tv_nebular_olcpge_android_pgerunner_PgeNativeLib_init
    (s : State) (internalFilesPath versionStr : String) : List Effect × State :=
  let (e1, s1) := releaseRenderer s
  let s2 := setRootPath s1 internalFilesPath
  let (e3, s3) := createOrLog s2 versionStr
  (e1 ++ e3, s3)

/-- The entry point `resize` (lines 98 to 104). -/
def Java_tv_nebular_olcpge_android_pgerunner_PgeNativeLib_resize
    (s : State) (width height : Int) : Except Fault (List Effect × State) :=
  match s.g_renderer with
  | some r => .ok ([Effect.resize r (toUnsigned width) (toUnsigned height)], s)
  | none => .ok ([], s)

/-- The entry point `step` (lines 110 to 115). -/
def Java_tv_nebular_olcpge_android_pgerunner_PgeNativeLib_step
    (s : State) : Except Fault (List Effect × State) :=
  match s.g_renderer with
  | some r => .ok ([Effect.render r], s)
  | none => .ok ([], s)

/-- Lines 125 to 151 of `onTouch`: the method calls made on the motion event
through JNI, in program order, and the record built from their answers.  The
second pointer is asked for only when `pointersCount > 1`; otherwise `x1` and
`y1` keep their initial value, the float -1 (lines 138 and 139). -/
def marshalMotionEvent (motionEvent : JMotionEvent) : List Effect × MotionEvent_t :=
  let pointersCount := motionEvent.getPointerCount
  let action := motionEvent.getAction
  let x0 := motionEvent.getX 0
  let y0 := motionEvent.getY 0
  let q0 := [Effect.CallIntMethod "getPointerCount", Effect.CallIntMethod "getAction",
    Effect.CallFloatMethod "getX" 0, Effect.CallFloatMethod "getY" 0]
  let (q1, x1, y1) :=
    if pointersCount > 1 then
      ([Effect.CallFloatMethod "getX" 1, Effect.CallFloatMethod "getY" 1],
        motionEvent.getX 1, motionEvent.getY 1)
    else
      ([], JFloat.finite (-1) 0, JFloat.finite (-1) 0)
  (q0 ++ q1,
    { PointersCount := pointersCount, Action := action,
      X0 := floatToInt x0, Y0 := floatToInt y0, X1 := floatToInt x1, Y1 := floatToInt y1 })

/-- The entry point `onTouch` (lines 122 to 153): the record is built, then
handed to `g_renderer->OnMotionEvent` with no test of `g_renderer`. -/
def Java_tv_nebular_olcpge_android_pgerunner_PgeNativeLib_onTouch
    (s : State) (motionEvent : JMotionEvent) : Except Fault (List Effect × State) :=
  let (q, inputEvent) := marshalMotionEvent motionEvent
  match s.g_renderer with
  | some r => .ok (q ++ [Effect.OnMotionEvent r inputEvent], s)
  | none => .error Fault.nullDereference

/-! ## Sequences of calls -/

/-- One call of the host into the library. -/
inductive Call where
  | init (internalFilesPath versionStr : String)
  | resize (width height : Int)
  | step
  | onTouch (motionEvent : JMotionEvent)

/-- The entry point a call stands for. -/
def Call.exec (s : State) : Call → Except Fault (List Effect × State)
  | .init p v => .ok (Java_tv_nebular_olcpge_android_pgerunner_PgeNativeLib_init s p v)
  | .resize w h => Java_tv_nebular_olcpge_android_pgerunner_PgeNativeLib_resize s w h
  | .step => Java_tv_nebular_olcpge_android_pgerunner_PgeNativeLib_step s
  | .onTouch ev => Java_tv_nebular_olcpge_android_pgerunner_PgeNativeLib_onTouch s ev

/-- A sequence of calls, one after the other; the run ends at the first fault. -/
def run (s : State) : List Call → Except Fault (List Effect × State)
  | [] => .ok ([], s)
  | c :: cs =>
    match c.exec s with
    | .error f => .error f
    | .ok (e1, s1) =>
      match run s1 cs with
      | .error f => .error f
      | .ok (e2, s2) => .ok (e1 ++ e2, s2)

/-- The calls `resize` and `step`. -/
def Call.isResizeOrStep : Call → Bool
  | .resize _ _ => true
  | .step => true
  | _ => false

/-- Every call but `onTouch`. -/
def Call.isNotTouch : Call → Bool
  | .onTouch _ => false
  | _ => true

/-! ## Notions the statements use -/

/-- The rational a `jfloat` stands for; infinities and NaN stand for none. -/
def JFloat.toRat : JFloat → Option ℚ
  | .finite m e => some ((m : ℚ) * (2 : ℚ) ^ e)
  | _ => none

/-- Truncation toward zero of a rational, in the words of the specification:
the fractional part is dropped. -/
def truncTowardZero (q : ℚ) : Int := if 0 ≤ q then ⌊q⌋ else ⌈q⌉

/-- The float `x` is finite and its truncation toward zero is the integer `t`,
which fits in `int`. -/
def JFloat.TruncatesTo (x : JFloat) (t : Int) : Prop :=
  ∃ q, x.toRat = some q ∧ truncTowardZero q = t ∧ INT_MIN ≤ t ∧ t ≤ INT_MAX

/-- The string `v` has `pat` as a substring. -/
def HasSubstring (v pat : String) : Prop :=
  ∃ a b : List Char, v.data = a ++ pat.data ++ b

/-- The invariant of the renderer handle: the only live instance is the one
`g_renderer` points to, and names not yet handed out are not live. -/
def Inv (s : State) : Prop :=
  s.live = s.g_renderer.toList ∧ ∀ r ∈ s.live, r < s.fresh

/-- A state the host can bring about: the end of a run of calls from process
start in which no call faulted. -/
def Reachable (s : State) : Prop :=
  ∃ (rootpath : String) (boot : Nat) (calls : List Call) (e : List Effect),
    run (initialState rootpath boot) calls = .ok (e, s)

/-- A one-pointer event at (2.5, 7.0). -/
def onePointerEvent : JMotionEvent :=
  { getPointerCount := 1, getAction := 0,
    getX := fun _ => JFloat.finite 5 (-1), getY := fun _ => JFloat.finite 7 0 }

/-- A one-pointer event whose X is the float 2147483648.0, that is `2 ^ 31`. -/
def overflowEvent : JMotionEvent :=
  { getPointerCount := 1, getAction := 0,
    getX := fun _ => JFloat.finite 1 31, getY := fun _ => JFloat.finite 0 0 }

/-- A two-pointer move event: pointer 0 at (2.5, 7.0), pointer 1 at (-3.5, 100.0). -/
def twoPointerEvent : JMotionEvent :=
  { getPointerCount := 2, getAction := 2,
    getX := fun i => if i = 0 then JFloat.finite 5 (-1) else JFloat.finite (-7) (-1),
    getY := fun i => if i = 0 then JFloat.finite 7 0 else JFloat.finite 25 2 }

/-- A state with a renderer, as left by a first successful `init`. -/
def stateWithRenderer : State :=
  { g_renderer := some 0, ROOTPATH := "/data/files/", BOOTINSTANCE := 7, live := [0], fresh := 1 }

/-! ## Basic facts about the entry points -/

theorem resize_absent (s : State) (w h : Int) (hs : s.g_renderer = none) :
    Java_tv_nebular_olcpge_android_pgerunner_PgeNativeLib_resize s w h = .ok ([], s) := by
  simp [Java_tv_nebular_olcpge_android_pgerunner_PgeNativeLib_resize, hs]

theorem step_absent (s : State) (hs : s.g_renderer = none) :
    Java_tv_nebular_olcpge_android_pgerunner_PgeNativeLib_step s = .ok ([], s) := by
  simp [Java_tv_nebular_olcpge_android_pgerunner_PgeNativeLib_step, hs]

theorem resize_present (s : State) (r : Nat) (w h : Int) (hs : s.g_renderer = some r) :
    Java_tv_nebular_olcpge_android_pgerunner_PgeNativeLib_resize s w h =
      .ok ([Effect.resize r (toUnsigned w) (toUnsigned h)], s) := by
  simp [Java_tv_nebular_olcpge_android_pgerunner_PgeNativeLib_resize, hs]

theorem step_present (s : State) (r : Nat) (hs : s.g_renderer = some r) :
    Java_tv_nebular_olcpge_android_pgerunner_PgeNativeLib_step s = .ok ([Effect.render r], s) := by
  simp [Java_tv_nebular_olcpge_android_pgerunner_PgeNativeLib_step, hs]

theorem onTouch_absent (s : State) (ev : JMotionEvent) (hs : s.g_renderer = none) :
    Java_tv_nebular_olcpge_android_pgerunner_PgeNativeLib_onTouch s ev =
      .error Fault.nullDereference := by
  simp [Java_tv_nebular_olcpge_android_pgerunner_PgeNativeLib_onTouch, hs]

theorem onTouch_present (s : State) (r : Nat) (ev : JMotionEvent) (hs : s.g_renderer = some r) :
    Java_tv_nebular_olcpge_android_pgerunner_PgeNativeLib_onTouch s ev =
      .ok ((marshalMotionEvent ev).1 ++ [Effect.OnMotionEvent r (marshalMotionEvent ev).2], s) := by
  simp [Java_tv_nebular_olcpge_android_pgerunner_PgeNativeLib_onTouch, hs]

/-- A call other than `init` that returns leaves the state as it was. -/
theorem exec_frame (s s1 : State) (c : Call) (e : List Effect)
    (hc : ∀ p v, c ≠ Call.init p v) (h : c.exec s = .ok (e, s1)) : s1 = s := by
  cases c with
  | init p v => exact absurd rfl (hc p v)
  | resize w h1 =>
    cases hr : s.g_renderer with
    | none => rw [Call.exec, resize_absent s w h1 hr] at h; cases h; rfl
    | some r => rw [Call.exec, resize_present s r w h1 hr] at h; cases h; rfl
  | step =>
    cases hr : s.g_renderer with
    | none => rw [Call.exec, step_absent s hr] at h; cases h; rfl
    | some r => rw [Call.exec, step_present s r hr] at h; cases h; rfl
  | onTouch ev =>
    cases hr : s.g_renderer with
    | none => rw [Call.exec, onTouch_absent s ev hr] at h; cases h
    | some r => rw [Call.exec, onTouch_present s r ev hr] at h; cases h; rfl

/-- A call of `resize` or `step` returns, with the state as it was. -/
theorem exec_resizeOrStep (s : State) (c : Call) (hc : c.isResizeOrStep = true) :
    ∃ e, c.exec s = .ok (e, s) ∧ (s.g_renderer = none → e = []) := by
  cases c with
  | init p v => simp [Call.isResizeOrStep] at hc
  | onTouch ev => simp [Call.isResizeOrStep] at hc
  | resize w h =>
    cases hr : s.g_renderer with
    | none => exact ⟨[], by rw [Call.exec, resize_absent s w h hr], fun _ => rfl⟩
    | some r => exact ⟨_, by rw [Call.exec, resize_present s r w h hr], fun h0 => by simp at h0⟩
  | step =>
    cases hr : s.g_renderer with
    | none => exact ⟨[], by rw [Call.exec, step_absent s hr], fun _ => rfl⟩
    | some r => exact ⟨_, by rw [Call.exec, step_present s r hr], fun h0 => by simp at h0⟩

theorem run_cons_ok (s s1 s2 : State) (c : Call) (cs : List Call) (e1 e2 : List Effect)
    (h1 : c.exec s = .ok (e1, s1)) (h2 : run s1 cs = .ok (e2, s2)) :
    run s (c :: cs) = .ok (e1 ++ e2, s2) := by
  simp [run, h1, h2]

theorem run_cons_inv (s s2 : State) (c : Call) (cs : List Call) (e : List Effect)
    (h : run s (c :: cs) = .ok (e, s2)) :
    ∃ e1 s1 e2, c.exec s = .ok (e1, s1) ∧ run s1 cs = .ok (e2, s2) ∧ e = e1 ++ e2 := by
  rw [run] at h
  split at h
  · cases h
  · rename_i e1 s1 h1
    split at h
    · cases h
    · rename_i e2 s3 h2
      cases h
      exact ⟨e1, s1, e2, h1, h2, rfl⟩

theorem run_append_ok (s s1 s2 : State) (cs ds : List Call) (e1 e2 : List Effect)
    (h1 : run s cs = .ok (e1, s1)) (h2 : run s1 ds = .ok (e2, s2)) :
    run s (cs ++ ds) = .ok (e1 ++ e2, s2) := by
  induction cs generalizing s e1 with
  | nil => rw [run] at h1; cases h1; simpa using h2
  | cons c cs ih =>
    obtain ⟨a, t, b, hc, hrest, he⟩ := run_cons_inv s s1 c cs e1 h1
    rw [List.cons_append, run_cons_ok s t s2 c (cs ++ ds) a (b ++ e2) hc (ih t b hrest), he,
      List.append_assoc]

/-- A sequence of `resize` and `step` calls returns, with the state as it was,
and with no effect at all when there is no renderer. -/
theorem run_resizeOrStep (s : State) (calls : List Call)
    (hcalls : ∀ c ∈ calls, c.isResizeOrStep = true) :
    ∃ e, run s calls = .ok (e, s) ∧ (s.g_renderer = none → e = []) := by
  induction calls with
  | nil => exact ⟨[], rfl, fun _ => rfl⟩
  | cons c cs ih =>
    obtain ⟨e1, h1, h1e⟩ := exec_resizeOrStep s c (hcalls c (List.mem_cons_self c cs))
    obtain ⟨e2, h2, h2e⟩ := ih (fun d hd => hcalls d (List.mem_cons_of_mem c hd))
    exact ⟨e1 ++ e2, run_cons_ok s s s c cs e1 e2 h1 h2,
      fun h0 => by rw [h1e h0, h2e h0]; rfl⟩

/-- A sequence of calls without `onTouch` returns. -/
theorem run_notTouch (s : State) (calls : List Call)
    (hcalls : ∀ c ∈ calls, c.isNotTouch = true) :
    ∃ e s1, run s calls = .ok (e, s1) := by
  induction calls generalizing s with
  | nil => exact ⟨[], s, rfl⟩
  | cons c cs ih =>
    have hex : ∃ e1 s1, c.exec s = .ok (e1, s1) := by
      cases c with
      | init p v => exact ⟨_, _, rfl⟩
      | onTouch ev =>
        have := hcalls (Call.onTouch ev) (List.mem_cons_self _ _)
        simp [Call.isNotTouch] at this
      | resize w h =>
        obtain ⟨e, he, _⟩ := exec_resizeOrStep s (Call.resize w h) rfl
        exact ⟨e, s, he⟩
      | step =>
        obtain ⟨e, he, _⟩ := exec_resizeOrStep s Call.step rfl
        exact ⟨e, s, he⟩
    obtain ⟨e1, s1, h1⟩ := hex
    obtain ⟨e2, s2, h2⟩ := ih s1 (fun d hd => hcalls d (List.mem_cons_of_mem c hd))
    exact ⟨e1 ++ e2, s2, run_cons_ok s s1 s2 c cs e1 e2 h1 h2⟩

theorem init_ROOTPATH (s : State) (p v : String) :
    (Java_tv_nebular_olcpge_android_pgerunner_PgeNativeLib_init s p v).2.ROOTPATH = p ++ "/" := by
  unfold Java_tv_nebular_olcpge_android_pgerunner_PgeNativeLib_init createOrLog createRender
    setRootPath
  dsimp only
  split <;> rfl

/-! ## The version check -/

theorem strstr_isSome_iff (haystack needle : List Char) :
    (strstr haystack needle).isSome = true ↔ ∃ a b, haystack = a ++ needle ++ b := by
  have key : (strstr haystack needle).isSome = true ↔ needle <:+: haystack := by
    induction haystack with
    | nil =>
      rw [strstr]
      split
      · rename_i h
        rw [ List.isPrefixOf_iff_prefix] at h
        simp [List.prefix_nil.mp h]
      · rename_i h
        rw [ List.isPrefixOf_iff_prefix] at h
        simp only [Option.isSome_none, Bool.false_eq_true, false_iff]
        intro hi
        exact h (List.prefix_nil.mpr (List.infix_nil.mp hi))
    | cons c cs ih =>
      rw [strstr, List.infix_cons_iff]
      split
      · rename_i h
        rw [ List.isPrefixOf_iff_prefix] at h
        simp [h]
      · rename_i h
        rw [ List.isPrefixOf_iff_prefix] at h
        rw [ih]
        simp [h]
  rw [key]
  constructor
  · rintro ⟨a, b, h⟩
    exact ⟨a, b, h.symm⟩
  · rintro ⟨a, b, h⟩
    exact ⟨a, b, h.symm⟩

/-- The condition of line 80 holds exactly when the version string has one of
the two substrings. -/
theorem versionCheck_iff (v : String) :
    (((strstr v.data "OpenGL ES 3.".data).isSome && gl3stubInit) ||
      (strstr v.data "OpenGL ES 2.".data).isSome) = true ↔
    (HasSubstring v "OpenGL ES 3." ∨ HasSubstring v "OpenGL ES 2.") := by
  simp only [gl3stubInit, Bool.and_true, Bool.or_eq_true, strstr_isSome_iff, HasSubstring]

theorem createOrLog_supported (s : State) (v : String)
    (h : HasSubstring v "OpenGL ES 3." ∨ HasSubstring v "OpenGL ES 2.") :
    createOrLog s v = ([Effect.createRender s.BOOTINSTANCE s.fresh],
      { s with g_renderer := some s.fresh, live := s.fresh :: s.live, fresh := s.fresh + 1 }) := by
  unfold createOrLog
  rw [if_pos ((versionCheck_iff v).mpr h)]
  rfl

theorem createOrLog_unsupported (s : State) (v : String)
    (h : ¬ (HasSubstring v "OpenGL ES 3." ∨ HasSubstring v "OpenGL ES 2.")) :
    createOrLog s v = ([Effect.ALOGE "Unsupported OpenGL ES version"], s) := by
  unfold createOrLog
  rw [if_neg (fun hc => h ((versionCheck_iff v).mp hc))]

theorem init_unfold (s : State) (p v : String) :
    Java_tv_nebular_olcpge_android_pgerunner_PgeNativeLib_init s p v =
      ((releaseRenderer s).1 ++ (createOrLog (setRootPath (releaseRenderer s).2 p) v).1,
        (createOrLog (setRootPath (releaseRenderer s).2 p) v).2) := rfl

theorem releaseRenderer_g_renderer (s : State) : (releaseRenderer s).2.g_renderer = none := by
  unfold releaseRenderer
  split
  · rfl
  · assumption

theorem releaseRenderer_fresh (s : State) : (releaseRenderer s).2.fresh = s.fresh := by
  unfold releaseRenderer
  split <;> rfl

theorem releaseRenderer_BOOTINSTANCE (s : State) :
    (releaseRenderer s).2.BOOTINSTANCE = s.BOOTINSTANCE := by
  unfold releaseRenderer
  split <;> rfl

theorem releaseRenderer_present (s : State) (r : Nat) (h : s.g_renderer = some r) :
    releaseRenderer s =
      ([Effect.delete r], { s with g_renderer := none, live := s.live.erase r }) := by
  unfold releaseRenderer
  rw [h]

theorem releaseRenderer_absent (s : State) (h : s.g_renderer = none) :
    releaseRenderer s = ([], s) := by
  unfold releaseRenderer
  rw [h]

theorem releaseRenderer_live (s : State) (hs : Inv s) : (releaseRenderer s).2.live = [] := by
  cases hr : s.g_renderer with
  | none =>
    rw [releaseRenderer_absent s hr, hs.1, hr]
    rfl
  | some r =>
    rw [releaseRenderer_present s r hr]
    simp [hs.1, hr]

/-! ## The invariant -/

theorem Inv_initialState (rootpath : String) (boot : Nat) : Inv (initialState rootpath boot) := by
  simp [Inv, initialState]

theorem Inv_init (s : State) (p v : String) (hs : Inv s) :
    Inv (Java_tv_nebular_olcpge_android_pgerunner_PgeNativeLib_init s p v).2 := by
  rw [init_unfold]
  by_cases h : HasSubstring v "OpenGL ES 3." ∨ HasSubstring v "OpenGL ES 2."
  · rw [createOrLog_supported _ v h]
    simp [Inv, setRootPath, releaseRenderer_live s hs, releaseRenderer_fresh]
  · rw [createOrLog_unsupported _ v h]
    simp [Inv, setRootPath, releaseRenderer_live s hs, releaseRenderer_g_renderer]

theorem Inv_exec (s s1 : State) (c : Call) (e : List Effect) (hs : Inv s)
    (h : c.exec s = .ok (e, s1)) : Inv s1 := by
  cases c with
  | init p v =>
    rw [Call.exec] at h
    cases h
    exact Inv_init s p v hs
  | resize w h1 => rw [exec_frame s s1 _ e (fun _ _ hc => by cases hc) h]; exact hs
  | step => rw [exec_frame s s1 _ e (fun _ _ hc => by cases hc) h]; exact hs
  | onTouch ev => rw [exec_frame s s1 _ e (fun _ _ hc => by cases hc) h]; exact hs

theorem Inv_run (s s1 : State) (calls : List Call) (e : List Effect) (hs : Inv s)
    (h : run s calls = .ok (e, s1)) : Inv s1 := by
  induction calls generalizing s e with
  | nil => rw [run] at h; cases h; exact hs
  | cons c cs ih =>
    obtain ⟨a, t, b, hc, hrest, _⟩ := run_cons_inv s s1 c cs e h
    exact ih t b (Inv_exec s t c a hs hc) hrest

theorem Inv_of_reachable (s : State) (hs : Reachable s) : Inv s := by
  obtain ⟨rootpath, boot, calls, e, h⟩ := hs
  exact Inv_run _ s calls e (Inv_initialState rootpath boot) h

/-! ## The conversion of the coordinates -/

theorem truncTowardZero_intCast (n : Int) : truncTowardZero (n : ℚ) = n := by
  unfold truncTowardZero
  split <;> simp

theorem truncTowardZero_div (m : Int) (k : Nat) :
    truncTowardZero ((m : ℚ) / ((2 ^ k : Nat) : ℚ)) = Int.tdiv m (2 ^ k) := by
  have hd : (0 : ℚ) < ((2 ^ k : Nat) : ℚ) := by positivity
  unfold truncTowardZero
  by_cases hm : 0 ≤ m
  · have hq : (0 : ℚ) ≤ (m : ℚ) / ((2 ^ k : Nat) : ℚ) :=
      div_nonneg (by exact_mod_cast hm) hd.le
    rw [if_pos hq, Rat.floor_intCast_div_natCast, Int.tdiv_eq_ediv hm (by positivity)]
    push_cast
    rfl
  · have hm1 : m < 0 := not_le.mp hm
    have hq : ¬ (0 : ℚ) ≤ (m : ℚ) / ((2 ^ k : Nat) : ℚ) := by
      rw [not_le]
      exact div_neg_of_neg_of_pos (by exact_mod_cast hm1) hd
    rw [if_neg hq]
    have h1 : (m : ℚ) / ((2 ^ k : Nat) : ℚ) = -((((-m : Int)) : ℚ) / ((2 ^ k : Nat) : ℚ)) := by
      push_cast; ring
    rw [h1, Int.ceil_neg, Rat.floor_intCast_div_natCast]
    have h2 : m = -(-m) := by ring
    conv_rhs => rw [h2, Int.neg_tdiv, Int.tdiv_eq_ediv (by omega) (by positivity)]
    push_cast
    rfl

/-- On a float whose truncation fits in `int`, the conversion `(int) x` is that truncation. -/
theorem floatToInt_of_truncatesTo (x : JFloat) (t : Int) (h : x.TruncatesTo t) :
    floatToInt x = t := by
  obtain ⟨q, hq, ht, hlo, hhi⟩ := h
  cases x with
  | inf neg => simp [JFloat.toRat] at hq
  | nan => simp [JFloat.toRat] at hq
  | finite m e =>
    simp only [JFloat.toRat, Option.some.injEq] at hq
    have hval : (if 0 ≤ e then m * 2 ^ e.toNat else Int.tdiv m (2 ^ (-e).toNat)) = t := by
      split
      · rename_i he
        rw [← ht, ← hq]
        obtain ⟨k, rfl⟩ := Int.eq_ofNat_of_zero_le he
        have hcast : (m : ℚ) * (2 : ℚ) ^ (k : Int) = ((m * 2 ^ k : Int) : ℚ) := by
          push_cast; rw [zpow_natCast]
        rw [hcast, truncTowardZero_intCast]
        simp
      · rename_i he
        rw [← ht, ← hq]
        obtain ⟨k, hk⟩ := Int.eq_ofNat_of_zero_le (show 0 ≤ -e by omega)
        have he1 : e = -(k : Int) := by omega
        have hcast : (m : ℚ) * (2 : ℚ) ^ e = (m : ℚ) / ((2 ^ k : Nat) : ℚ) := by
          rw [he1, zpow_neg, zpow_natCast]; push_cast; rw [div_eq_mul_inv]
        rw [hcast, truncTowardZero_div, hk]
        simp
    simp only [floatToInt, hval]
    rw [if_neg (not_lt.mpr hlo), if_neg (not_lt.mpr hhi)]

theorem truncatesTo_two_and_a_half : (JFloat.finite 5 (-1)).TruncatesTo 2 := by
  refine ⟨5 / 2, ?_, ?_, by decide, by decide⟩
  · simp [JFloat.toRat]; norm_num
  · simp [truncTowardZero]; norm_num [Int.floor_eq_iff]

theorem truncatesTo_minus_three_and_a_half : (JFloat.finite (-7) (-1)).TruncatesTo (-3) := by
  refine ⟨-7 / 2, ?_, ?_, by decide, by decide⟩
  · simp [JFloat.toRat]; norm_num
  · simp [truncTowardZero]; norm_num [Int.ceil_eq_iff]

theorem truncatesTo_seven : (JFloat.finite 7 0).TruncatesTo 7 := by
  refine ⟨7, ?_, ?_, by decide, by decide⟩
  · simp [JFloat.toRat]
  · simp [truncTowardZero]

theorem truncatesTo_hundred : (JFloat.finite 25 2).TruncatesTo 100 := by
  refine ⟨100, ?_, ?_, by decide, by decide⟩
  · simp [JFloat.toRat]; norm_num
  · simp [truncTowardZero]

/-! ## The claims -/

/-- C1: from a state without renderer (such as process start, before any
successful init) every sequence of `resize` and `step` calls returns without
fault, with no effect on any collaborator and with the state, renderer handle
and base storage path included, as it was; so does each single call. -/
theorem C1_resize_step_without_renderer_noop (s : State) (calls : List Call)
    (habsent : s.g_renderer = none) (hcalls : ∀ c ∈ calls, c.isResizeOrStep = true) :
    run s calls = .ok ([], s) ∧
    (∀ w h, Java_tv_nebular_olcpge_android_pgerunner_PgeNativeLib_resize s w h = .ok ([], s)) ∧
    Java_tv_nebular_olcpge_android_pgerunner_PgeNativeLib_step s = .ok ([], s) := by
  obtain ⟨e, he, hnil⟩ := run_resizeOrStep s calls hcalls
  rw [hnil habsent] at he
  exact ⟨he, fun w h => resize_absent s w h habsent, step_absent s habsent⟩

/-- The example of C1: `resize(800, 600)`, then `step()`, then `resize(800, 600)` again before any init. -/
theorem C1_witness :
    run (initialState "" 0) [Call.resize 800 600, Call.step, Call.resize 800 600] =
      .ok ([], initialState "" 0) :=
  (C1_resize_step_without_renderer_noop (initialState "" 0)
    [Call.resize 800 600, Call.step, Call.resize 800 600] rfl
    (by simp [Call.isResizeOrStep])).1

/-- C2: whatever the state before and whatever the path `p`, when `init(p)`
succeeds, that is leaves a renderer `r` in `g_renderer`, the base storage path
`ROOTPATH` is `p` followed by the one character `/`. -/
theorem C2_rootpath_after_successful_init (s : State) (p v : String) (r : Nat)
    (_hok : (Java_tv_nebular_olcpge_android_pgerunner_PgeNativeLib_init s p v).2.g_renderer
      = some r) :
    (Java_tv_nebular_olcpge_android_pgerunner_PgeNativeLib_init s p v).2.ROOTPATH = p ++ "/" ∧
    (Java_tv_nebular_olcpge_android_pgerunner_PgeNativeLib_init s p v).2.ROOTPATH.data
      = p.data ++ ['/'] := by
  rw [init_ROOTPATH]
  exact ⟨rfl, rfl⟩

/-- An instance of C2: a first init with path `/data/files` under OpenGL ES 3.2. -/
theorem C2_witness :
    (Java_tv_nebular_olcpge_android_pgerunner_PgeNativeLib_init (initialState "" 7)
      "/data/files" "OpenGL ES 3.2 V@415.0").2.g_renderer = some 0 ∧
    (Java_tv_nebular_olcpge_android_pgerunner_PgeNativeLib_init (initialState "" 7)
      "/data/files" "OpenGL ES 3.2 V@415.0").2.ROOTPATH = "/data/files/" :=
  ⟨by decide, (C2_rootpath_after_successful_init (initialState "" 7)
    "/data/files" "OpenGL ES 3.2 V@415.0" 0 (by decide)).1⟩

/-- C3: in every reachable state at most one renderer instance is live, and it
is the one `g_renderer` points to.  When `init` is called while a renderer `r`
is present, its first step deletes `r` and clears the handle, which leaves no
live instance; only then the new instance, different from `r`, is constructed
(or the error is logged), and again at most one instance is live. -/
theorem C3_at_most_one_live_renderer (s : State) (hs : Reachable s) :
    s.live.length ≤ 1 ∧ s.live = s.g_renderer.toList ∧
    ∀ r p v, s.g_renderer = some r →
      releaseRenderer s = ([Effect.delete r], { s with g_renderer := none, live := [] }) ∧
      (setRootPath (releaseRenderer s).2 p).live = [] ∧
      (Java_tv_nebular_olcpge_android_pgerunner_PgeNativeLib_init s p v).2.live.length ≤ 1 ∧
      (Java_tv_nebular_olcpge_android_pgerunner_PgeNativeLib_init s p v).2.live =
        (Java_tv_nebular_olcpge_android_pgerunner_PgeNativeLib_init s p v).2.g_renderer.toList ∧
      (((Java_tv_nebular_olcpge_android_pgerunner_PgeNativeLib_init s p v).1 =
            [Effect.delete r, Effect.createRender s.BOOTINSTANCE s.fresh] ∧
          (Java_tv_nebular_olcpge_android_pgerunner_PgeNativeLib_init s p v).2.g_renderer =
            some s.fresh ∧ s.fresh ≠ r) ∨
        ((Java_tv_nebular_olcpge_android_pgerunner_PgeNativeLib_init s p v).1 =
            [Effect.delete r, Effect.ALOGE "Unsupported OpenGL ES version"] ∧
          (Java_tv_nebular_olcpge_android_pgerunner_PgeNativeLib_init s p v).2.g_renderer =
            none)) := by
  have hinv := Inv_of_reachable s hs
  refine ⟨?_, hinv.1, ?_⟩
  · rw [hinv.1]
    cases s.g_renderer <;> simp
  · intro r p v hr
    have hlive : s.live = [r] := by rw [hinv.1, hr]; rfl
    have hrel : releaseRenderer s =
        ([Effect.delete r], { s with g_renderer := none, live := [] }) := by
      rw [releaseRenderer_present s r hr, hlive]
      simp
    have hafter := Inv_init s p v hinv
    refine ⟨hrel, ?_, ?_, hafter.1, ?_⟩
    · simp [setRootPath, releaseRenderer_live s hinv]
    · rw [hafter.1]
      cases (Java_tv_nebular_olcpge_android_pgerunner_PgeNativeLib_init s p v).2.g_renderer <;>
        simp
    · have hne : s.fresh ≠ r := by
        have : r < s.fresh := hinv.2 r (by rw [hlive]; exact List.mem_singleton_self r)
        omega
      rw [init_unfold]
      by_cases h : HasSubstring v "OpenGL ES 3." ∨ HasSubstring v "OpenGL ES 2."
      · left
        rw [createOrLog_supported _ v h, hrel]
        exact ⟨rfl, rfl, hne⟩
      · right
        rw [createOrLog_unsupported _ v h, hrel]
        exact ⟨rfl, rfl⟩

/-- An instance of C3: the state after a first successful init is reachable and has one live renderer. -/
theorem C3_witness :
    Reachable stateWithRenderer ∧ stateWithRenderer.live.length ≤ 1 :=
  have hreach : Reachable stateWithRenderer :=
    ⟨"", 7, [Call.init "/data/files" "OpenGL ES 3.2 V@415.0"], [Effect.createRender 7 0], rfl⟩
  ⟨hreach, (C3_at_most_one_live_renderer stateWithRenderer hreach).1⟩

/-- C4: for every version string `v`, path and state before (renderer present
or not), after `init` a renderer is present exactly when `v` has the substring
`OpenGL ES 3.` or `OpenGL ES 2.`; then it is the newly constructed instance and
nothing is logged; otherwise the last effect is the error log and the renderer
is absent, also when one was present before.  The two examples of the
specification are the last two parts. -/
theorem C4_renderer_present_iff_supported_version (s : State) (p v : String) :
    ((Java_tv_nebular_olcpge_android_pgerunner_PgeNativeLib_init s p v).2.g_renderer.isSome
        = true ↔
      (HasSubstring v "OpenGL ES 3." ∨ HasSubstring v "OpenGL ES 2.")) ∧
    ((HasSubstring v "OpenGL ES 3." ∨ HasSubstring v "OpenGL ES 2.") →
      (Java_tv_nebular_olcpge_android_pgerunner_PgeNativeLib_init s p v).2.g_renderer =
        some s.fresh ∧
      (Java_tv_nebular_olcpge_android_pgerunner_PgeNativeLib_init s p v).1 =
        (releaseRenderer s).1 ++ [Effect.createRender s.BOOTINSTANCE s.fresh]) ∧
    (¬ (HasSubstring v "OpenGL ES 3." ∨ HasSubstring v "OpenGL ES 2.") →
      (Java_tv_nebular_olcpge_android_pgerunner_PgeNativeLib_init s p v).2.g_renderer = none ∧
      (Java_tv_nebular_olcpge_android_pgerunner_PgeNativeLib_init s p v).1 =
        (releaseRenderer s).1 ++ [Effect.ALOGE "Unsupported OpenGL ES version"]) ∧
    (Java_tv_nebular_olcpge_android_pgerunner_PgeNativeLib_init s p
      "OpenGL ES 3.0 ...").2.g_renderer = some s.fresh ∧
    (Java_tv_nebular_olcpge_android_pgerunner_PgeNativeLib_init s p
      "OpenGL ES 1.1 ...").2.g_renderer = none ∧
    Effect.ALOGE "Unsupported OpenGL ES version" ∈
      (Java_tv_nebular_olcpge_android_pgerunner_PgeNativeLib_init s p "OpenGL ES 1.1 ...").1 := by
  have hyes : ∀ w, (HasSubstring w "OpenGL ES 3." ∨ HasSubstring w "OpenGL ES 2.") →
      (Java_tv_nebular_olcpge_android_pgerunner_PgeNativeLib_init s p w).2.g_renderer =
        some s.fresh ∧
      (Java_tv_nebular_olcpge_android_pgerunner_PgeNativeLib_init s p w).1 =
        (releaseRenderer s).1 ++ [Effect.createRender s.BOOTINSTANCE s.fresh] := by
    intro w h
    rw [init_unfold, createOrLog_supported _ w h]
    simp [setRootPath, releaseRenderer_fresh, releaseRenderer_BOOTINSTANCE]
  have hno : ∀ w, ¬ (HasSubstring w "OpenGL ES 3." ∨ HasSubstring w "OpenGL ES 2.") →
      (Java_tv_nebular_olcpge_android_pgerunner_PgeNativeLib_init s p w).2.g_renderer = none ∧
      (Java_tv_nebular_olcpge_android_pgerunner_PgeNativeLib_init s p w).1 =
        (releaseRenderer s).1 ++ [Effect.ALOGE "Unsupported OpenGL ES version"] := by
    intro w h
    rw [init_unfold, createOrLog_unsupported _ w h]
    simp [setRootPath, releaseRenderer_g_renderer]
  have h30 : HasSubstring "OpenGL ES 3.0 ..." "OpenGL ES 3." ∨
      HasSubstring "OpenGL ES 3.0 ..." "OpenGL ES 2." :=
    (versionCheck_iff "OpenGL ES 3.0 ...").mp (by decide)
  have h11 : ¬ (HasSubstring "OpenGL ES 1.1 ..." "OpenGL ES 3." ∨
      HasSubstring "OpenGL ES 1.1 ..." "OpenGL ES 2.") :=
    fun h => absurd ((versionCheck_iff "OpenGL ES 1.1 ...").mpr h) (by decide)
  refine ⟨?_, hyes v, hno v, (hyes _ h30).1, (hno _ h11).1, ?_⟩
  · constructor
    · intro hsome
      by_contra hc
      rw [(hno v hc).1] at hsome
      simp at hsome
    · intro h
      rw [(hyes v h).1]
      rfl
  · rw [(hno _ h11).2]
    simp

/-- C5, as amended: for every motion event with pointer count 1 the record
that `onTouch` builds has `X1 = -1` and `Y1 = -1`, `PointersCount = 1` and the
event's action code; `X0` and `Y0` are the truncation toward zero of pointer 0's
X and Y whenever that truncation fits in `int`; the JNI calls made are the four
on the count, the action and pointer 0, so pointer index 1 is never queried;
and with a renderer present exactly that record is forwarded to it. -/
theorem C5_one_pointer_record (ev : JMotionEvent) (hcount : ev.getPointerCount = 1) :
    (marshalMotionEvent ev).1 =
      [Effect.CallIntMethod "getPointerCount", Effect.CallIntMethod "getAction",
        Effect.CallFloatMethod "getX" 0, Effect.CallFloatMethod "getY" 0] ∧
    (∀ method, Effect.CallFloatMethod method 1 ∉ (marshalMotionEvent ev).1) ∧
    (marshalMotionEvent ev).2.PointersCount = 1 ∧
    (marshalMotionEvent ev).2.Action = ev.getAction ∧
    (marshalMotionEvent ev).2.X1 = -1 ∧
    (marshalMotionEvent ev).2.Y1 = -1 ∧
    (∀ t, (ev.getX 0).TruncatesTo t → (marshalMotionEvent ev).2.X0 = t) ∧
    (∀ t, (ev.getY 0).TruncatesTo t → (marshalMotionEvent ev).2.Y0 = t) ∧
    (∀ s r, s.g_renderer = some r →
      Java_tv_nebular_olcpge_android_pgerunner_PgeNativeLib_onTouch s ev =
        .ok ((marshalMotionEvent ev).1 ++
          [Effect.OnMotionEvent r (marshalMotionEvent ev).2], s)) := by
  have hq : (marshalMotionEvent ev).1 =
      [Effect.CallIntMethod "getPointerCount", Effect.CallIntMethod "getAction",
        Effect.CallFloatMethod "getX" 0, Effect.CallFloatMethod "getY" 0] := by
    simp [marshalMotionEvent, hcount]
  refine ⟨hq, ?_, ?_, ?_, ?_, ?_, ?_, ?_, ?_⟩
  · intro method
    rw [hq]
    simp
  · simp [marshalMotionEvent, hcount]
  · simp [marshalMotionEvent]
  · simp [marshalMotionEvent, hcount]
    decide
  · simp [marshalMotionEvent, hcount]
    decide
  · intro t ht
    simpa [marshalMotionEvent] using floatToInt_of_truncatesTo _ t ht
  · intro t ht
    simpa [marshalMotionEvent] using floatToInt_of_truncatesTo _ t ht
  · intro s r hr
    exact onTouch_present s r ev hr

/-- The claim C5 as first stated fails: the event has one pointer, its X is the
float `2 ^ 31`, whose truncation is `2 ^ 31` and exceeds every `int`; the
record's `X0` is not that truncation. -/
theorem C5_counterexample :
    overflowEvent.getPointerCount = 1 ∧
    (overflowEvent.getX 0).toRat = some 2147483648 ∧
    truncTowardZero 2147483648 = 2147483648 ∧
    INT_MAX < truncTowardZero 2147483648 ∧
    (marshalMotionEvent overflowEvent).2.X0 ≤ INT_MAX ∧
    (marshalMotionEvent overflowEvent).2.X0 ≠ truncTowardZero 2147483648 := by
  have htr : truncTowardZero 2147483648 = 2147483648 := by
    have := truncTowardZero_intCast 2147483648
    simpa using this
  refine ⟨rfl, ?_, htr, ?_, by decide, ?_⟩
  · simp [overflowEvent, JFloat.toRat]
    norm_num
  · rw [htr]
    decide
  · rw [htr]
    decide

/-- An instance of C5: one pointer at (2.5, 7.0) gives the record (2, 7, -1, -1). -/
theorem C5_witness :
    onePointerEvent.getPointerCount = 1 ∧
    (marshalMotionEvent onePointerEvent).2 =
      { PointersCount := 1, Action := 0, X0 := 2, Y0 := 7, X1 := -1, Y1 := -1 } ∧
    (marshalMotionEvent onePointerEvent).2.X0 = 2 :=
  ⟨rfl, by decide,
    (C5_one_pointer_record onePointerEvent rfl).2.2.2.2.2.2.1 2 truncatesTo_two_and_a_half⟩

/-- C6: for every motion event with pointer count 2 whose four coordinates
truncate toward zero to integers `a0`, `b0`, `a1`, `b1` within `int` range, the
record that `onTouch` builds is (2, action code, a0, b0, a1, b1): the pair of
pointer index 0, then the pair of pointer index 1; with a renderer present
`onTouch` returns, having forwarded exactly that record. -/
theorem C6_two_pointer_record (ev : JMotionEvent) (a0 b0 a1 b1 : Int)
    (hcount : ev.getPointerCount = 2)
    (hx0 : (ev.getX 0).TruncatesTo a0) (hy0 : (ev.getY 0).TruncatesTo b0)
    (hx1 : (ev.getX 1).TruncatesTo a1) (hy1 : (ev.getY 1).TruncatesTo b1) :
    (marshalMotionEvent ev).2 =
      { PointersCount := 2, Action := ev.getAction, X0 := a0, Y0 := b0, X1 := a1, Y1 := b1 } ∧
    (marshalMotionEvent ev).1 =
      [Effect.CallIntMethod "getPointerCount", Effect.CallIntMethod "getAction",
        Effect.CallFloatMethod "getX" 0, Effect.CallFloatMethod "getY" 0,
        Effect.CallFloatMethod "getX" 1, Effect.CallFloatMethod "getY" 1] ∧
    (∀ s r, s.g_renderer = some r →
      Java_tv_nebular_olcpge_android_pgerunner_PgeNativeLib_onTouch s ev =
        .ok ((marshalMotionEvent ev).1 ++
          [Effect.OnMotionEvent r
            { PointersCount := 2, Action := ev.getAction, X0 := a0, Y0 := b0, X1 := a1, Y1 := b1 }],
          s)) := by
  have hrec : (marshalMotionEvent ev).2 =
      { PointersCount := 2, Action := ev.getAction, X0 := a0, Y0 := b0, X1 := a1, Y1 := b1 } := by
    simp [marshalMotionEvent, hcount, floatToInt_of_truncatesTo _ _ hx0,
      floatToInt_of_truncatesTo _ _ hy0, floatToInt_of_truncatesTo _ _ hx1,
      floatToInt_of_truncatesTo _ _ hy1]
  refine ⟨hrec, ?_, ?_⟩
  · simp [marshalMotionEvent, hcount]
  · intro s r hr
    rw [onTouch_present s r ev hr, hrec]

/-- An instance of C6: pointers at (2.5, 7.0) and (-3.5, 100.0) give the record (2, 7, -3, 100). -/
theorem C6_witness :
    twoPointerEvent.getPointerCount = 2 ∧
    (marshalMotionEvent twoPointerEvent).2 =
      { PointersCount := 2, Action := 2, X0 := 2, Y0 := 7, X1 := -3, Y1 := 100 } :=
  ⟨rfl, (C6_two_pointer_record twoPointerEvent 2 7 (-3) 100 rfl truncatesTo_two_and_a_half
    truncatesTo_seven truncatesTo_minus_three_and_a_half truncatesTo_hundred).1⟩

/-- C7: without a renderer (before any successful init, or after an init that
failed the version check) `onTouch` does not return: for every event it ends in
the fault of calling a method through the null `g_renderer`; `resize` and
`step` in the same state return normally, with no effect. -/
theorem C7_onTouch_without_renderer_faults (s : State) (ev : JMotionEvent) (w h : Int)
    (habsent : s.g_renderer = none) :
    Java_tv_nebular_olcpge_android_pgerunner_PgeNativeLib_onTouch s ev =
      .error Fault.nullDereference ∧
    Java_tv_nebular_olcpge_android_pgerunner_PgeNativeLib_resize s w h = .ok ([], s) ∧
    Java_tv_nebular_olcpge_android_pgerunner_PgeNativeLib_step s = .ok ([], s) :=
  ⟨onTouch_absent s ev habsent, resize_absent s w h habsent, step_absent s habsent⟩

/-- Two instances of C7: a touch at process start, and a touch after an init
under OpenGL ES 1.1, which drops the renderer that was there. -/
theorem C7_witness :
    Java_tv_nebular_olcpge_android_pgerunner_PgeNativeLib_onTouch (initialState "" 7)
      onePointerEvent = .error Fault.nullDereference ∧
    Java_tv_nebular_olcpge_android_pgerunner_PgeNativeLib_onTouch
      (Java_tv_nebular_olcpge_android_pgerunner_PgeNativeLib_init stateWithRenderer
        "/data/files" "OpenGL ES 1.1 ...").2
      onePointerEvent = .error Fault.nullDereference :=
  ⟨(C7_onTouch_without_renderer_faults (initialState "" 7) onePointerEvent 800 600 rfl).1,
    (C7_onTouch_without_renderer_faults
      (Java_tv_nebular_olcpge_android_pgerunner_PgeNativeLib_init stateWithRenderer
        "/data/files" "OpenGL ES 1.1 ...").2 onePointerEvent 800 600 (by decide)).1⟩

/-- C8: with a renderer `r` present, `resize(w, h)` for 32 bit signed `w` and
`h` returns with exactly one effect, the call of the renderer's `resize` with
`w mod 2 ^ 32` and `h mod 2 ^ 32`, both below `2 ^ 32`; for non-negative `w`
and `h` the forwarded values are `w` and `h` themselves. -/
theorem C8_resize_forwards_unsigned (s : State) (r : Nat) (w h : Int)
    (hr : s.g_renderer = some r) (hw : INT_MIN ≤ w ∧ w ≤ INT_MAX)
    (hh : INT_MIN ≤ h ∧ h ≤ INT_MAX) :
    Java_tv_nebular_olcpge_android_pgerunner_PgeNativeLib_resize s w h =
      .ok ([Effect.resize r (toUnsigned w) (toUnsigned h)], s) ∧
    (toUnsigned w : Int) = w % 2 ^ 32 ∧ (toUnsigned h : Int) = h % 2 ^ 32 ∧
    toUnsigned w < 2 ^ 32 ∧ toUnsigned h < 2 ^ 32 ∧
    (0 ≤ w → (toUnsigned w : Int) = w) ∧ (0 ≤ h → (toUnsigned h : Int) = h) := by
  have hmod : ∀ x : Int, (toUnsigned x : Int) = x % 2 ^ 32 := by
    intro x
    unfold toUnsigned
    exact Int.toNat_of_nonneg (Int.emod_nonneg x (by norm_num))
  have hlt : ∀ x : Int, toUnsigned x < 2 ^ 32 := by
    intro x
    have h1 : x % 2 ^ 32 < 2 ^ 32 := Int.emod_lt_of_pos x (by norm_num)
    have h2 := hmod x
    omega
  have hid : ∀ x : Int, x ≤ INT_MAX → 0 ≤ x → (toUnsigned x : Int) = x := by
    intro x hx h0
    rw [hmod x]
    unfold INT_MAX at hx
    omega
  exact ⟨resize_present s r w h hr, hmod w, hmod h, hlt w, hlt h, hid w hw.2, hid h hh.2⟩

/-- Two instances of C8: `resize(800, 600)` forwards (800, 600), and `resize(-1, 600)` forwards (4294967295, 600). -/
theorem C8_witness :
    Java_tv_nebular_olcpge_android_pgerunner_PgeNativeLib_resize stateWithRenderer 800 600 =
      .ok ([Effect.resize 0 800 600], stateWithRenderer) ∧
    Java_tv_nebular_olcpge_android_pgerunner_PgeNativeLib_resize stateWithRenderer (-1) 600 =
      .ok ([Effect.resize 0 4294967295 600], stateWithRenderer) :=
  ⟨(C8_resize_forwards_unsigned stateWithRenderer 0 800 600 rfl (by decide) (by decide)).1,
    (C8_resize_forwards_unsigned stateWithRenderer 0 (-1) 600 rfl (by decide) (by decide)).1⟩

/-- C9: the last init wins for the base storage path.  A sequence of calls
without `onTouch` that has an init with path `p` (under any version string,
supported or not) followed only by `resize` and `step` calls returns, from any
state, and ends with `ROOTPATH` equal to `p` followed by `/`. -/
theorem C9_last_init_wins (s0 : State) (pre post : List Call) (p v : String)
    (hpre : ∀ c ∈ pre, c.isNotTouch = true) (hpost : ∀ c ∈ post, c.isResizeOrStep = true) :
    ∃ e s, run s0 (pre ++ Call.init p v :: post) = .ok (e, s) ∧ s.ROOTPATH = p ++ "/" := by
  obtain ⟨e1, s1, h1⟩ := run_notTouch s0 pre hpre
  obtain ⟨e3, h3, _⟩ := run_resizeOrStep
    (Java_tv_nebular_olcpge_android_pgerunner_PgeNativeLib_init s1 p v).2 post hpost
  have h2 : run s1 (Call.init p v :: post) =
      .ok ((Java_tv_nebular_olcpge_android_pgerunner_PgeNativeLib_init s1 p v).1 ++ e3,
        (Java_tv_nebular_olcpge_android_pgerunner_PgeNativeLib_init s1 p v).2) :=
    run_cons_ok s1 _ _ (Call.init p v) post _ e3 rfl h3
  exact ⟨_, _, run_append_ok s0 s1 _ pre _ e1 _ h1 h2, init_ROOTPATH s1 p v⟩

/-- An instance of C9: an init that succeeds, a resize, then an init with
another path that fails the version check, then a step: the second path stays. -/
theorem C9_witness :
    ∃ e s, run (initialState "" 7)
        ([Call.init "/a" "OpenGL ES 3.2", Call.resize 800 600] ++
          Call.init "/b" "OpenGL ES 1.1" :: [Call.step]) = .ok (e, s) ∧
      s.ROOTPATH = "/b" ++ "/" :=
  C9_last_init_wins (initialState "" 7) [Call.init "/a" "OpenGL ES 3.2", Call.resize 800 600]
    [Call.step] "/b" "OpenGL ES 1.1" (by simp [Call.isNotTouch]) (by simp [Call.isResizeOrStep])

/-- C10: only init changes the state.  In every state and for every argument
`resize` and `step` return with the state (the renderer handle `g_renderer` and
the base storage path `ROOTPATH` with it) as it was, and so does `onTouch` when
a renderer is present; hence a run of calls none of which is an init ends, if
it returns, in the state it started from. -/
theorem C10_only_init_changes_state (s : State) :
    (∀ w h, ∃ e, Java_tv_nebular_olcpge_android_pgerunner_PgeNativeLib_resize s w h
      = .ok (e, s)) ∧
    (∃ e, Java_tv_nebular_olcpge_android_pgerunner_PgeNativeLib_step s = .ok (e, s)) ∧
    (∀ ev r, s.g_renderer = some r →
      ∃ e, Java_tv_nebular_olcpge_android_pgerunner_PgeNativeLib_onTouch s ev = .ok (e, s)) ∧
    (∀ calls e s1, (∀ c ∈ calls, ∀ p v, c ≠ Call.init p v) →
      run s calls = .ok (e, s1) →
      s1 = s ∧ s1.g_renderer = s.g_renderer ∧ s1.ROOTPATH = s.ROOTPATH) := by
  refine ⟨?_, ?_, ?_, ?_⟩
  · intro w h
    obtain ⟨e, he, _⟩ := exec_resizeOrStep s (Call.resize w h) rfl
    exact ⟨e, he⟩
  · obtain ⟨e, he, _⟩ := exec_resizeOrStep s Call.step rfl
    exact ⟨e, he⟩
  · intro ev r hr
    exact ⟨_, onTouch_present s r ev hr⟩
  · intro calls
    induction calls with
    | nil =>
      intro e s1 _ h
      rw [run] at h
      cases h
      exact ⟨rfl, rfl, rfl⟩
    | cons c cs ih =>
      intro e s1 hcs h
      obtain ⟨a, t, b, hc, hrest, _⟩ := run_cons_inv s s1 c cs e h
      have ht : t = s := exec_frame s t c a (hcs c (List.mem_cons_self c cs)) hc
      rw [ht] at hrest
      exact ih b s1 (fun d hd => hcs d (List.mem_cons_of_mem c hd)) hrest

/-- An instance of C10: with a renderer present a two-pointer touch returns and leaves the state as it was. -/
theorem C10_witness :
    stateWithRenderer.g_renderer = some 0 ∧
    ∃ e, Java_tv_nebular_olcpge_android_pgerunner_PgeNativeLib_onTouch stateWithRenderer
      twoPointerEvent = .ok (e, stateWithRenderer) :=
  ⟨rfl, (C10_only_init_changes_state stateWithRenderer).2.2.1 twoPointerEvent 0 rfl⟩

end PgeRunner
